import Mathlib

/-!
Verification of the tax-info server request-handling core
(`server/server.js`): address formatter, phone normalizer, lookup
orchestrator with its three source adapters, persistence store,
spreadsheet sync with bounded retries, and the HTTP request handlers.
All definitions are shallow embeddings of the JavaScript source;
external effects (fetch outcomes, the filesystem, the environment)
are passed in explicitly.
-/

namespace TaxInfo

/-- The JavaScript whitespace class: the set matched by `\s` in a regex
and stripped by `String.prototype.trim` (WhiteSpace ∪ LineTerminator). -/
def isJsWs (c : Char) : Bool :=
  c = ' ' || ('\t' ≤ c && c ≤ '\r') || c = '\u00A0' || c = '\u1680' ||
  ('\u2000' ≤ c && c ≤ '\u200A') || c = '\u2028' || c = '\u2029' ||
  c = '\u202F' || c = '\u205F' || c = '\u3000' || c = '\uFEFF'

/-- Drop leading JavaScript whitespace from a character list. -/
def dropWsL : List Char → List Char
  | [] => []
  | c :: cs => if isJsWs c then dropWsL cs else c :: cs

/-- `String.prototype.trim`: drop leading and trailing whitespace. -/
def trimL (l : List Char) : List Char :=
  dropWsL (dropWsL l.reverse).reverse

/-- Case canonicalization used by the `/i` regex flag, restricted to the
letters that occur in the address patterns (`m a n t e i v Ệ`); on every
other character it is the identity, which matches no pattern letter
either way, so the restriction is behavior-preserving. -/
def lowerChar (c : Char) : Char :=
  if c = 'M' then 'm' else if c = 'A' then 'a' else if c = 'N' then 'n'
  else if c = 'T' then 't' else if c = 'E' then 'e' else if c = 'I' then 'i'
  else if c = 'V' then 'v' else if c = 'Ệ' then 'ệ' else c

/-- The word `Nam`, reversed and lowered, as consumed by the matcher. -/
def revNam : List Char := ['m', 'a', 'n']

/-- The word `Việt`, reversed and lowered. -/
def revViet : List Char := ['t', 'ệ', 'i', 'v']

/-- The ASCII word tail of `Vietnam` (`viet`), reversed and lowered. -/
def revVietA : List Char := ['t', 'e', 'i', 'v']

/-- Consume a reversed pattern word (given lowered) case-insensitively
from the front of a reversed input, returning the rest on success. -/
def stripCI : List Char → List Char → Option (List Char)
  | [], l => some l
  | _ :: _, [] => none
  | p :: ps, c :: cs => if lowerChar c = p then stripCI ps cs else none

/-- After the country word has been consumed from the reversed address,
the remaining prefix must supply the separator demanded by the source
regexes: either at least one whitespace character (`/\s+Việt.../`,
`/\s+Vietnam.../`), or a comma possibly followed by whitespace
(`/,\s*Việt.../`, `/,\s*Vietnam.../`). -/
def sepOk (l : List Char) : Bool :=
  (match l with | c :: _ => isJsWs c | [] => false) ||
  (match dropWsL l with | c :: _ => decide (c = ',') | [] => false)

/-- The disjunction of the four `vietnamPatterns` regexes of
`formatAddress`, evaluated on the reversed address: optional trailing
whitespace, then `Nam`, then (for the two-word spelling) optional
whitespace and `Việt`, or (for the one-word spelling) `viet` directly,
then the mandatory separator. -/
def endsVietnamRev (r : List Char) : Bool :=
  match stripCI revNam (dropWsL r) with
  | none => false
  | some r2 =>
    (match stripCI revViet (dropWsL r2) with
     | some r3 => sepOk r3
     | none => false) ||
    (match stripCI revVietA r2 with
     | some r3 => sepOk r3
     | none => false)

/-- `vietnamPatterns.some (p => p.test trimmedAddress)`. -/
def hasVietnamSuffix (l : List Char) : Bool := endsVietnamRev l.reverse

/-- `formatAddress` from `server/server.js`: empty on blank input,
otherwise the trimmed address, with `", Việt Nam"` appended when no
pattern of `vietnamPatterns` matches. -/
def formatAddress (s : String) : String :=
  let t := trimL s.data
  if t = [] then ""
  else if hasVietnamSuffix t then String.mk t
  else String.mk t ++ ", Việt Nam"

/-- `phone.replace(/\s+/g, '')`: removing every whitespace character. -/
def removeJsWs (l : List Char) : List Char := l.filter (fun c => !isJsWs c)

/-- The dash-removal step `phone.replace` with the global dash regex. -/
def removeDashes (l : List Char) : List Char := l.filter (fun c => !decide (c = '-'))

/-- `phone.replace(/\+84/g, '0')`: left-to-right, non-overlapping global
replacement of `+84` by `0`. -/
def replacePlus84 : List Char → List Char
  | '+' :: '8' :: '4' :: rest => '0' :: replacePlus84 rest
  | c :: rest => c :: replacePlus84 rest
  | [] => []

/-- `phone.replace(/^84/, '0')`: rewrite a leading `84` to `0`. -/
def replaceLead84 : List Char → List Char
  | '8' :: '4' :: rest => '0' :: rest
  | l => l

/-- The phone normalization pipeline of `POST /api/tax-info`, in source
order: strip whitespace, strip dashes, replace every `+84` by `0`,
rewrite a leading `84` to `0`. -/
def normalizePhoneL (l : List Char) : List Char :=
  replaceLead84 (replacePlus84 (removeDashes (removeJsWs l)))

/-- String-level wrapper of the phone normalizer. -/
def normalizePhone (s : String) : String := String.mk (normalizePhoneL s.data)


/-- Every character of the list is JavaScript whitespace. -/
def allWs (l : List Char) : Prop := ∀ c ∈ l, isJsWs c = true

/-- The list spells the given word up to the case canonicalization of
the `/i` regex flag. -/
def ciWord (w : List Char) (p : String) : Prop := w.map lowerChar = p.data

/-- Declarative form of the separator the source regexes demand before
the country name: a comma followed by optional whitespace, or at least
one whitespace character. -/
def sepSpec (sep : List Char) : Prop :=
  (∃ s2, sep = ',' :: s2 ∧ allWs s2) ∨ (sep ≠ [] ∧ allWs sep)

/-- Declarative statement that an address ends with a country marker as
the source regexes accept it: some prefix, then a mandatory separator
(comma or whitespace), then `Việt` + optional whitespace + `Nam` or the
single word `Vietnam` (case-insensitively), then optional trailing
whitespace. -/
def countrySuffix (t : List Char) : Prop :=
  ∃ pre sep w1 gap w2 tws,
    t = pre ++ sep ++ w1 ++ gap ++ w2 ++ tws ∧ allWs tws ∧ sepSpec sep ∧
    ((ciWord w1 "việt" ∧ allWs gap ∧ ciWord w2 "nam") ∨
     (ciWord w1 "viet" ∧ gap = [] ∧ ciWord w2 "nam"))

theorem ws_lowerChar_self {c : Char} (h : isJsWs c = true) : lowerChar c = c := by
  unfold lowerChar
  split_ifs <;> first
    | rfl
    | (subst_vars; exact absurd h (by decide))

theorem notWs_of_mem_lower {c : Char} {p : List Char} (hmem : lowerChar c ∈ p)
    (hp : ∀ x ∈ p, isJsWs x = false) : isJsWs c = false := by
  by_cases h : isJsWs c = true
  · rw [ws_lowerChar_self h] at hmem
    exact hp _ hmem
  · simpa using h

theorem word_not_ws {u p : List Char} (hu : u.map lowerChar = p)
    (hp : ∀ x ∈ p, isJsWs x = false) : ∀ c ∈ u, isJsWs c = false := by
  intro c hc
  exact notWs_of_mem_lower (hu ▸ List.mem_map_of_mem lowerChar hc) hp

theorem ne_nil_of_map_ne {u p : List Char} (hu : u.map lowerChar = p)
    (hp : p ≠ []) : u ≠ [] := by
  intro h
  rw [h] at hu
  exact hp hu.symm

theorem dropWsL_append_ws {w : List Char} (l : List Char)
    (hw : ∀ c ∈ w, isJsWs c = true) : dropWsL (w ++ l) = dropWsL l := by
  induction w with
  | nil => rfl
  | cons a w ih =>
    rw [List.cons_append]
    simp only [dropWsL, hw a (List.mem_cons_self a w), if_true]
    exact ih (fun c hc => hw c (List.mem_cons_of_mem a hc))

theorem dropWsL_cons_not_ws {c : Char} (l : List Char) (h : isJsWs c = false) :
    dropWsL (c :: l) = c :: l := by
  simp [dropWsL, h]

theorem dropWsL_decomp (l : List Char) :
    ∃ w, l = w ++ dropWsL l ∧ ∀ c ∈ w, isJsWs c = true := by
  induction l with
  | nil => exact ⟨[], rfl, by simp⟩
  | cons c cs ih =>
    by_cases h : isJsWs c = true
    · obtain ⟨w, hw, hws⟩ := ih
      refine ⟨c :: w, ?_, ?_⟩
      · simp only [dropWsL, h, if_true, List.cons_append]
        exact congrArg (c :: ·) hw
      · intro x hx
        rcases List.mem_cons.mp hx with rfl | hx
        · exact h
        · exact hws x hx
    · refine ⟨[], ?_, by simp⟩
      rw [List.nil_append, dropWsL_cons_not_ws _ (Bool.not_eq_true _ ▸ h)]

theorem stripCI_of_map (u R : List Char) :
    stripCI (u.map lowerChar) (u ++ R) = some R := by
  induction u with
  | nil => rfl
  | cons c cs ih => simp [stripCI, ih]

theorem stripCI_some {p l R : List Char} (h : stripCI p l = some R) :
    ∃ u, l = u ++ R ∧ u.map lowerChar = p := by
  induction p generalizing l with
  | nil =>
    refine ⟨[], ?_, rfl⟩
    simpa [stripCI] using h
  | cons q qs ih =>
    cases l with
    | nil => simp [stripCI] at h
    | cons c cs =>
      by_cases hc : lowerChar c = q
      · rw [stripCI, if_pos hc] at h
        obtain ⟨u, hu, hm⟩ := ih h
        exact ⟨c :: u, by simp [hu], by simp [hm, hc]⟩
      · rw [stripCI, if_neg hc] at h
        cases h

theorem stripCI_dropWs {u p : List Char} (R : List Char) (hu : u.map lowerChar = p)
    (hne : u ≠ []) (hws : ∀ c ∈ u, isJsWs c = false) :
    stripCI p (dropWsL (u ++ R)) = some R := by
  cases u with
  | nil => exact absurd rfl hne
  | cons c cs =>
    rw [List.cons_append, dropWsL_cons_not_ws _ (hws c (List.mem_cons_self c cs)),
      ← List.cons_append, ← hu]
    exact stripCI_of_map _ _

theorem sepOk_of_spec {sep : List Char} (rest : List Char) (h : sepSpec sep) :
    sepOk (sep.reverse ++ rest) = true := by
  rcases h with ⟨s2, rfl, hws⟩ | ⟨hne, hws⟩
  · have heq : (',' :: s2).reverse ++ rest = s2.reverse ++ (',' :: rest) := by simp
    rw [heq]
    have hB : dropWsL (s2.reverse ++ (',' :: rest)) = ',' :: rest := by
      rw [dropWsL_append_ws _ (fun c hc => hws c (List.mem_reverse.mp hc)),
        dropWsL_cons_not_ws _ (by decide)]
    simp [sepOk, hB]
  · obtain ⟨c, cs, hrev⟩ : ∃ c cs, sep.reverse = c :: cs := by
      cases hr : sep.reverse with
      | nil => exact absurd (List.reverse_eq_nil_iff.mp hr) hne
      | cons c cs => exact ⟨c, cs, rfl⟩
    have hc : isJsWs c = true :=
      hws c (List.mem_reverse.mp (hrev ▸ List.mem_cons_self c cs))
    rw [hrev, List.cons_append]
    simp [sepOk, hc]

theorem sepOk_spec {l : List Char} (h : sepOk l = true) :
    ∃ sep rest, l = sep.reverse ++ rest ∧ sepSpec sep := by
  unfold sepOk at h
  rcases Bool.or_eq_true_iff.mp h with hA | hB
  · cases l with
    | nil => simp at hA
    | cons c cs =>
      refine ⟨[c], cs, by simp, Or.inr ⟨by simp, ?_⟩⟩
      intro x hx
      rcases List.mem_cons.mp hx with rfl | hx
      · exact hA
      · simp at hx
  · obtain ⟨w, hw, hws⟩ := dropWsL_decomp l
    cases hd : dropWsL l with
    | nil => rw [hd] at hB; simp at hB
    | cons c rest =>
      rw [hd] at hB
      have hc : c = ',' := by simpa using hB
      subst hc
      refine ⟨',' :: w.reverse, rest, ?_,
        Or.inl ⟨w.reverse, rfl, fun x hx => hws x (List.mem_reverse.mp hx)⟩⟩
      rw [hw, hd]
      simp

theorem hasVietnamSuffix_iff (t : List Char) :
    hasVietnamSuffix t = true ↔ countrySuffix t := by
  constructor
  · intro h
    unfold hasVietnamSuffix endsVietnamRev at h
    cases hs1 : stripCI revNam (dropWsL t.reverse) with
    | none => rw [hs1] at h; simp at h
    | some r2 =>
      rw [hs1] at h
      obtain ⟨w0, hw0, hws0⟩ := dropWsL_decomp t.reverse
      obtain ⟨u2, hu2, hm2⟩ := stripCI_some hs1
      rcases Bool.or_eq_true_iff.mp h with hA | hB
      · cases hs2 : stripCI revViet (dropWsL r2) with
        | none => rw [hs2] at hA; simp at hA
        | some r3 =>
          rw [hs2] at hA
          obtain ⟨w1s, hw1, hws1⟩ := dropWsL_decomp r2
          obtain ⟨u1, hu1, hm1⟩ := stripCI_some hs2
          obtain ⟨sep, rest, hr3, hsep⟩ := sepOk_spec hA
          refine ⟨rest.reverse, sep, u1.reverse, w1s.reverse, u2.reverse, w0.reverse,
            ?_, fun c hc => hws0 c (List.mem_reverse.mp hc), hsep, Or.inl
            ⟨?_, fun c hc => hws1 c (List.mem_reverse.mp hc), ?_⟩⟩
          · have hr : t.reverse = w0 ++ (u2 ++ (w1s ++ (u1 ++ (sep.reverse ++ rest)))) := by
              rw [hw0, hu2, hw1, hu1, hr3]
            have := congrArg List.reverse hr
            simpa [List.reverse_append, List.append_assoc] using this
          · show (u1.reverse).map lowerChar = _
            rw [List.map_reverse, hm1]
            decide
          · show (u2.reverse).map lowerChar = _
            rw [List.map_reverse, hm2]
            decide
      · cases hs2 : stripCI revVietA r2 with
        | none => rw [hs2] at hB; simp at hB
        | some r3 =>
          rw [hs2] at hB
          obtain ⟨u1, hu1, hm1⟩ := stripCI_some hs2
          obtain ⟨sep, rest, hr3, hsep⟩ := sepOk_spec hB
          refine ⟨rest.reverse, sep, u1.reverse, [], u2.reverse, w0.reverse,
            ?_, fun c hc => hws0 c (List.mem_reverse.mp hc), hsep, Or.inr
            ⟨?_, rfl, ?_⟩⟩
          · have hr : t.reverse = w0 ++ (u2 ++ (u1 ++ (sep.reverse ++ rest))) := by
              rw [hw0, hu2, hu1, hr3]
            have := congrArg List.reverse hr
            simpa [List.reverse_append, List.append_assoc] using this
          · show (u1.reverse).map lowerChar = _
            rw [List.map_reverse, hm1]
            decide
          · show (u2.reverse).map lowerChar = _
            rw [List.map_reverse, hm2]
            decide
  · rintro ⟨pre, sep, w1, gap, w2, tws, rfl, htws, hsep, hword⟩
    unfold hasVietnamSuffix endsVietnamRev
    have hrev : (pre ++ sep ++ w1 ++ gap ++ w2 ++ tws).reverse
        = tws.reverse ++ (w2.reverse ++ (gap.reverse ++ (w1.reverse ++ (sep.reverse ++ pre.reverse)))) := by
      simp [List.reverse_append, List.append_assoc]
    rw [hrev, dropWsL_append_ws _ (fun c hc => htws c (List.mem_reverse.mp hc))]
    rcases hword with ⟨h1, hgap, h2⟩ | ⟨h1, rfl, h2⟩
    · have hm2 : (w2.reverse).map lowerChar = revNam := by
        rw [List.map_reverse, h2]
        decide
      rw [stripCI_dropWs _ hm2 (ne_nil_of_map_ne hm2 (by decide))
        (word_not_ws hm2 (by decide))]
      have hdrop : dropWsL (gap.reverse ++ (w1.reverse ++ (sep.reverse ++ pre.reverse)))
          = dropWsL (w1.reverse ++ (sep.reverse ++ pre.reverse)) :=
        dropWsL_append_ws _ (fun c hc => hgap c (List.mem_reverse.mp hc))
      have hm1 : (w1.reverse).map lowerChar = revViet := by
        rw [List.map_reverse, h1]
        decide
      have hstrip : stripCI revViet (dropWsL (w1.reverse ++ (sep.reverse ++ pre.reverse)))
          = some (sep.reverse ++ pre.reverse) :=
        stripCI_dropWs _ hm1 (ne_nil_of_map_ne hm1 (by decide))
          (word_not_ws hm1 (by decide))
      simp only [hdrop, hstrip, sepOk_of_spec _ hsep, Bool.true_or]
    · have hm2 : (w2.reverse).map lowerChar = revNam := by
        rw [List.map_reverse, h2]
        decide
      rw [List.reverse_nil, List.nil_append,
        stripCI_dropWs _ hm2 (ne_nil_of_map_ne hm2 (by decide))
          (word_not_ws hm2 (by decide))]
      have hm1 : (w1.reverse).map lowerChar = revVietA := by
        rw [List.map_reverse, h1]
        decide
      have hstrip : stripCI revVietA (w1.reverse ++ (sep.reverse ++ pre.reverse))
          = some (sep.reverse ++ pre.reverse) := by
        rw [← hm1]
        exact stripCI_of_map _ _
      simp only [hstrip, sepOk_of_spec _ hsep, Bool.or_true]


/-- C6 (amended): the address formatter returns the empty string on
blank input; for every address whose trimmed form ends with a country
marker preceded by a mandatory comma or whitespace separator (as
captured by `countrySuffix`) it returns the input trimmed but otherwise
unchanged; for every other address — including one that is exactly the
bare country name with nothing before it — it appends exactly
`", Việt Nam"` to the trimmed text. -/
theorem formatAddress_country_suffix (s : String) :
    (trimL s.data = [] → formatAddress s = "") ∧
    (countrySuffix (trimL s.data) → formatAddress s = String.mk (trimL s.data)) ∧
    (trimL s.data ≠ [] → ¬ countrySuffix (trimL s.data) →
      formatAddress s = String.mk (trimL s.data) ++ ", Việt Nam") := by
  refine ⟨fun h => ?_, fun h => ?_, fun h1 h2 => ?_⟩
  · simp [formatAddress, h]
  · have hm : hasVietnamSuffix (trimL s.data) = true := (hasVietnamSuffix_iff _).mpr h
    have hne : trimL s.data ≠ [] := by
      intro he
      rw [he] at hm
      exact absurd hm (by decide)
    simp [formatAddress, hm, hne]
  · have hm : hasVietnamSuffix (trimL s.data) = false := by
      rw [← Bool.not_eq_true]
      intro hh
      exact h2 ((hasVietnamSuffix_iff _).mp hh)
    simp [formatAddress, hm, h1]

/-- Witness for C6: a concrete address ending in a comma-separated
country name passes through the formatter unchanged. -/
theorem formatAddress_country_suffix_witness :
    formatAddress "Hà Nội, Việt Nam" = "Hà Nội, Việt Nam" := by
  have h := (formatAddress_country_suffix "Hà Nội, Việt Nam").2.1
    ⟨"Hà Nội".data, [',', ' '], "Việt".data, [' '], "Nam".data, [],
      by decide,
      by intro c hc; simp at hc,
      Or.inl ⟨[' '], rfl, by intro c hc; rw [List.mem_singleton] at hc; subst hc; decide⟩,
      Or.inl ⟨by unfold ciWord; decide,
        by intro c hc; rw [List.mem_singleton] at hc; subst hc; decide,
        by unfold ciWord; decide⟩⟩
  exact h.trans (by decide)

/-- C6 counterexample: the trimmed address `"Vietnam"` ends with the
country name `Vietnam` with no leading comma or space (the claim calls
that separator optional), yet the formatter does not return it
unchanged — it appends the suffix. -/
theorem formatAddress_bare_country_cex :
    formatAddress "Vietnam" = "Vietnam, Việt Nam" ∧
    formatAddress "Vietnam" ≠ "Vietnam" := by
  constructor <;> decide

theorem replacePlus84_cons_ne {c : Char} (cs : List Char) (hc : c ≠ '+') :
    replacePlus84 (c :: cs) = c :: replacePlus84 cs := by
  rw [replacePlus84.eq_def]
  split
  · rename_i rest heq
    injection heq with h1 _
    exact absurd h1 hc
  · rename_i c2 rest heq
    injection heq with h1 h2
    subst h1
    subst h2
    rfl
  · rename_i heq
    cases heq

theorem replacePlus84_no_plus {l : List Char} (h : ∀ c ∈ l, c ≠ '+') :
    replacePlus84 l = l := by
  induction l with
  | nil => rfl
  | cons c cs ih =>
    rw [replacePlus84_cons_ne cs (h c (List.mem_cons_self c cs)),
      ih (fun x hx => h x (List.mem_cons_of_mem c hx))]

theorem replaceLead84_cases (l : List Char) :
    replaceLead84 l = l ∨ ∃ x, l = '8' :: '4' :: x ∧ replaceLead84 l = '0' :: x := by
  rw [replaceLead84.eq_def]
  split
  · rename_i rest
    exact Or.inr ⟨rest, rfl, rfl⟩
  · exact Or.inl rfl

theorem mem_removeJsWs {c : Char} {l : List Char} (h : c ∈ removeJsWs l) :
    c ∈ l ∧ isJsWs c = false := by
  have := List.mem_filter.mp h
  exact ⟨this.1, by simpa using this.2⟩

theorem mem_removeDashes {c : Char} {l : List Char} (h : c ∈ removeDashes l) :
    c ∈ l ∧ c ≠ '-' := by
  have := List.mem_filter.mp h
  exact ⟨this.1, by simpa using this.2⟩

theorem clean_digits {rest : List Char}
    (h : ∀ c ∈ rest, c.isDigit = true ∨ c = ' ' ∨ c = '-') :
    ∀ c ∈ removeDashes (removeJsWs rest), c.isDigit = true := by
  intro c hc
  obtain ⟨hc1, hdash⟩ := mem_removeDashes hc
  obtain ⟨hc2, hws⟩ := mem_removeJsWs hc1
  rcases h c hc2 with hd | rfl | rfl
  · exact hd
  · exact absurd hws (by decide)
  · exact absurd rfl hdash

theorem no_plus_of_digits {l : List Char} (h : ∀ c ∈ l, c.isDigit = true) :
    ∀ c ∈ l, c ≠ '+' := by
  intro c hc heq
  subst heq
  exact absurd (h _ hc) (by decide)

/-- C5 (amended): for every phone string made of digits, spaces and
hyphens carrying a leading `"+84"` or `"84"` country-code prefix, the
normalizer yields a string that starts with `"0"` and contains only
digits; for such a string without the prefix the result still contains
only digits (but need not start with `"0"`). The normalizer is a total
rewriting function — it never rejects input. -/
theorem normalizePhone_prefix_digits (rest : List Char)
    (h : ∀ c ∈ rest, c.isDigit = true ∨ c = ' ' ∨ c = '-') :
    ((normalizePhoneL ('+' :: '8' :: '4' :: rest)).head? = some '0' ∧
      ∀ c ∈ normalizePhoneL ('+' :: '8' :: '4' :: rest), c.isDigit = true) ∧
    ((normalizePhoneL ('8' :: '4' :: rest)).head? = some '0' ∧
      ∀ c ∈ normalizePhoneL ('8' :: '4' :: rest), c.isDigit = true) ∧
    (∀ c ∈ normalizePhoneL rest, c.isDigit = true) := by
  have hcd := clean_digits h
  have hnp := no_plus_of_digits hcd
  have hrp : replacePlus84 (removeDashes (removeJsWs rest))
      = removeDashes (removeJsWs rest) := replacePlus84_no_plus hnp
  have e1 : removeJsWs ('+' :: '8' :: '4' :: rest)
      = '+' :: '8' :: '4' :: removeJsWs rest := rfl
  have e2 : removeDashes ('+' :: '8' :: '4' :: removeJsWs rest)
      = '+' :: '8' :: '4' :: removeDashes (removeJsWs rest) := rfl
  have e3 : removeJsWs ('8' :: '4' :: rest) = '8' :: '4' :: removeJsWs rest := rfl
  have e4 : removeDashes ('8' :: '4' :: removeJsWs rest)
      = '8' :: '4' :: removeDashes (removeJsWs rest) := rfl
  refine ⟨?_, ?_, ?_⟩
  · have hval : normalizePhoneL ('+' :: '8' :: '4' :: rest)
        = '0' :: removeDashes (removeJsWs rest) := by
      unfold normalizePhoneL
      rw [e1, e2]
      rw [show replacePlus84 ('+' :: '8' :: '4' :: removeDashes (removeJsWs rest))
          = '0' :: replacePlus84 (removeDashes (removeJsWs rest)) from rfl, hrp]
      rfl
    rw [hval]
    refine ⟨rfl, ?_⟩
    intro c hc
    rcases List.mem_cons.mp hc with rfl | hc
    · decide
    · exact hcd c hc
  · have hval : normalizePhoneL ('8' :: '4' :: rest)
        = '0' :: removeDashes (removeJsWs rest) := by
      unfold normalizePhoneL
      rw [e3, e4]
      rw [replacePlus84_no_plus (by
        intro c hc
        rcases List.mem_cons.mp hc with rfl | hc
        · decide
        · rcases List.mem_cons.mp hc with rfl | hc
          · decide
          · exact hnp c hc)]
      rfl
    rw [hval]
    refine ⟨rfl, ?_⟩
    intro c hc
    rcases List.mem_cons.mp hc with rfl | hc
    · decide
    · exact hcd c hc
  · intro c hc
    unfold normalizePhoneL at hc
    rw [hrp] at hc
    rcases replaceLead84_cases (removeDashes (removeJsWs rest)) with he | ⟨x, hx, he⟩
    · rw [he] at hc
      exact hcd c hc
    · rw [he] at hc
      rcases List.mem_cons.mp hc with rfl | hc
      · decide
      · exact hcd c (by rw [hx]; exact List.mem_cons_of_mem _ (List.mem_cons_of_mem _ hc))

/-- Witness for C5: a concrete `"+84"`-prefixed phone with spaces and
hyphens normalizes to an all-digit string starting with `"0"`. -/
theorem normalizePhone_prefix_digits_witness :
    (normalizePhoneL ('+' :: '8' :: '4' :: " 123-456-789".data)).head? = some '0' ∧
    ∀ c ∈ normalizePhoneL ('+' :: '8' :: '4' :: " 123-456-789".data), c.isDigit = true :=
  (normalizePhone_prefix_digits " 123-456-789".data (by decide)).1

/-- C5 counterexample: the phone string `"1-2"` contains a hyphen, so
the claim asserts the normalized result starts with `"0"`; the
normalizer actually returns `"12"`. -/
theorem normalizePhone_hyphen_cex :
    ('-' ∈ "1-2".data) ∧ normalizePhone "1-2" = "12" ∧
    (normalizePhone "1-2").data.head? ≠ some '0' := by
  refine ⟨by decide, by decide, by decide⟩


/-- The persisted submission record built by `POST /api/tax-info`. -/
structure TaxRecord where
  taxCode : String
  companyName : String
  address : String
  email : String
  phone : String
  invoiceNumber : String
  createdAt : String
  updatedAt : String
deriving DecidableEq, Repr

/-- JavaScript `a || b` on strings, where the empty string models every
falsy value (missing field, null, empty). -/
def orElse (a b : String) : String := if a = "" then b else a

/-- The body of one webhook HTTP response: either JSON that parses and
carries the application-level `success` flag together with the optional
`message` field (the empty string models an absent message), or a body
on which `JSON.parse` throws. -/
inductive Body
  | okJson (success : Bool) (message : String)
  | badJson
deriving DecidableEq, Repr

/-- Outcome of one `fetch` to the Apps Script webhook: an HTTP response
with status, status text and body; a 30-second abort; a network-level
failure (message containing `fetch failed` or `ECONNREFUSED`); or any
other thrown error with its message. -/
inductive FetchOutcome
  | response (status : Nat) (statusText : String) (body : Body)
  | timeout
  | networkError
  | otherError (msg : String)
deriving DecidableEq, Repr

/-- Observable result of `appendTaxInfoToSheet`: the returned
`{success, message}` object, instrumented with the total number of
`fetch` attempts performed and the list of backoff waits (in ms)
executed between attempts. -/
structure SyncResult where
  success : Bool
  message : String
  attempts : Nat
  waits : List Nat
deriving DecidableEq, Repr

/-- `MAX_RETRIES` from `appendTaxInfoToSheet`. -/
def MAX_RETRIES : Nat := 2

/-- The per-status error message built for a non-retried HTTP failure
(the 401/403/404 hints, otherwise `HTTP <status>: <statusText>`). -/
def errorMessageFor (status : Nat) (statusText : String) : String :=
  if status = 401 then
    "Apps Script authorization error. Check if \"Who has access\" is set to \"Anyone\""
  else if status = 403 then
    "Permission denied. Check if the Google Sheet allows editing"
  else if status = 404 then
    "Apps Script URL not found. Check GOOGLE_APPS_SCRIPT_URL"
  else
    "HTTP " ++ toString status ++ ": " ++ statusText

/-- `appendTaxInfoToSheet` from `server/server.js`. The webhook is
modelled by `env`, giving the `fetch` outcome of each attempt (indexed
by the `retryCount` of that attempt); `cfg` models whether
`GOOGLE_APPS_SCRIPT_URL` is set; the record itself does not influence
control flow. Branches, retry conditions, backoff amounts and messages
follow the source: retry while `retryCount < MAX_RETRIES` on an ok
response whose JSON `success` flag is false, on a JSON parse failure,
on HTTP status ≥ 500, on timeout and on network error, waiting
`1000 * (retryCount + 1)` ms before each retry; no retry otherwise. -/
def appendTaxInfoToSheet (record : TaxRecord) (cfg : Bool)
    (env : Nat → FetchOutcome) (retryCount : Nat) : SyncResult :=
  if cfg = false then ⟨false, "Google Sheets not configured", 0, []⟩
  else
    match env retryCount with
    | .response status statusText body =>
      if 200 ≤ status ∧ status ≤ 299 then
        match body with
        | .okJson true _ => ⟨true, "Data saved to Google Sheets", 1, []⟩
        | .okJson false msg =>
          if h : retryCount < MAX_RETRIES then
            let r := appendTaxInfoToSheet record cfg env (retryCount + 1)
            ⟨r.success, r.message, r.attempts + 1, 1000 * (retryCount + 1) :: r.waits⟩
          else ⟨false, orElse msg "Apps Script returned error", 1, []⟩
        | .badJson =>
          if h : retryCount < MAX_RETRIES then
            let r := appendTaxInfoToSheet record cfg env (retryCount + 1)
            ⟨r.success, r.message, r.attempts + 1, 1000 * (retryCount + 1) :: r.waits⟩
          else ⟨false, "Failed to parse response from Google Sheets", 1, []⟩
      else
        if h : 500 ≤ status ∧ retryCount < MAX_RETRIES then
          let r := appendTaxInfoToSheet record cfg env (retryCount + 1)
          ⟨r.success, r.message, r.attempts + 1, 1000 * (retryCount + 1) :: r.waits⟩
        else ⟨false, errorMessageFor status statusText, 1, []⟩
    | .timeout =>
      if h : retryCount < MAX_RETRIES then
        let r := appendTaxInfoToSheet record cfg env (retryCount + 1)
        ⟨r.success, r.message, r.attempts + 1, 1000 * (retryCount + 1) :: r.waits⟩
      else ⟨false, "Request timeout. Please check your connection and try again.", 1, []⟩
    | .networkError =>
      if h : retryCount < MAX_RETRIES then
        let r := appendTaxInfoToSheet record cfg env (retryCount + 1)
        ⟨r.success, r.message, r.attempts + 1, 1000 * (retryCount + 1) :: r.waits⟩
      else ⟨false, "Network error. Please check your connection.", 1, []⟩
    | .otherError msg => ⟨false, orElse msg "Unknown error occurred", 1, []⟩
termination_by MAX_RETRIES + 1 - retryCount
decreasing_by all_goals (simp only [MAX_RETRIES] at *; omega)


/-- A fixed record for instantiating the sync theorems; its contents do
not influence the sync control flow. -/
def anyRecord : TaxRecord := ⟨"0123456789", "", "", "a@b.co", "0123456789", "", "", ""⟩

/-- C3: against a webhook answering HTTP 500 on every attempt, the sync
makes exactly 3 total attempts (2 retries) and fails, waiting
`1000ms * attemptNumber` between attempts (1s then 2s); against a
webhook answering HTTP 400 on the first attempt it makes exactly 1
attempt, fails, and performs no backoff wait. -/
theorem sync_retry_counts (record : TaxRecord) (env : Nat → FetchOutcome) :
    ((∀ n, ∃ st b, env n = .response 500 st b) →
      (appendTaxInfoToSheet record true env 0).success = false ∧
      (appendTaxInfoToSheet record true env 0).attempts = 3 ∧
      (appendTaxInfoToSheet record true env 0).waits = [1000, 2000]) ∧
    (∀ st b, env 0 = .response 400 st b →
      (appendTaxInfoToSheet record true env 0).success = false ∧
      (appendTaxInfoToSheet record true env 0).attempts = 1 ∧
      (appendTaxInfoToSheet record true env 0).waits = []) := by
  constructor
  · intro h
    obtain ⟨st0, b0, h0⟩ := h 0
    obtain ⟨st1, b1, h1⟩ := h 1
    obtain ⟨st2, b2, h2⟩ := h 2
    refine ⟨?_, ?_, ?_⟩ <;>
      simp [appendTaxInfoToSheet, h0, h1, h2, MAX_RETRIES]
  · intro st b h0
    refine ⟨?_, ?_, ?_⟩ <;>
      simp [appendTaxInfoToSheet, h0, MAX_RETRIES]

/-- An always-HTTP-500 webhook, for the C3 witness. -/
def envAlways500 : Nat → FetchOutcome :=
  fun _ => .response 500 "Internal Server Error" .badJson

/-- An HTTP-400 webhook, for the C3 witness. -/
def envAlways400 : Nat → FetchOutcome :=
  fun _ => .response 400 "Bad Request" .badJson

/-- Witness for C3 at two concrete webhooks. -/
theorem sync_retry_counts_witness :
    ((appendTaxInfoToSheet anyRecord true envAlways500 0).success = false ∧
      (appendTaxInfoToSheet anyRecord true envAlways500 0).attempts = 3 ∧
      (appendTaxInfoToSheet anyRecord true envAlways500 0).waits = [1000, 2000]) ∧
    ((appendTaxInfoToSheet anyRecord true envAlways400 0).success = false ∧
      (appendTaxInfoToSheet anyRecord true envAlways400 0).attempts = 1 ∧
      (appendTaxInfoToSheet anyRecord true envAlways400 0).waits = []) :=
  ⟨(sync_retry_counts anyRecord envAlways500).1
      (fun _ => ⟨"Internal Server Error", .badJson, rfl⟩),
    (sync_retry_counts anyRecord envAlways400).2 "Bad Request" .badJson rfl⟩

/-- A webhook whose first response is well-formed with an
application-level failure flag and whose second attempt succeeds. -/
def envAppFlagThenOk : Nat → FetchOutcome := fun n =>
  if n = 0 then .response 200 "OK" (.okJson false "quota exceeded")
  else .response 200 "OK" (.okJson true "")

/-- C1 counterexample: on a well-formed response whose application-level
success flag is false, the sync does NOT report final failure after the
first attempt — it retries, here making a second attempt that succeeds,
so the overall outcome is success after 2 attempts with a 1s backoff. -/
theorem sync_app_failure_retried_cex :
    appendTaxInfoToSheet anyRecord true envAppFlagThenOk 0
      = ⟨true, "Data saved to Google Sheets", 2, [1000]⟩ := by
  simp [appendTaxInfoToSheet, envAppFlagThenOk, MAX_RETRIES]

/-- C1 (amended): an HTTP 4xx response is not retried — the sync makes a
single attempt and reports final failure with the message derived from
the HTTP status (hints for 401/403/404, otherwise the status text) —
but a well-formed response whose application-level success flag is
false IS retried like a 5xx, up to 2 more attempts; when every attempt
reports the failure flag, the final failure surfaces the last
server-provided message (or a default when it is absent). -/
theorem sync_4xx_final_app_failure_retried (record : TaxRecord)
    (env : Nat → FetchOutcome) :
    (∀ status st b, 400 ≤ status → status ≤ 499 → env 0 = .response status st b →
      (appendTaxInfoToSheet record true env 0).attempts = 1 ∧
      (appendTaxInfoToSheet record true env 0).success = false ∧
      (appendTaxInfoToSheet record true env 0).message = errorMessageFor status st) ∧
    (∀ st m : Nat → String, (∀ n, env n = .response 200 (st n) (.okJson false (m n))) →
      (appendTaxInfoToSheet record true env 0).attempts = 3 ∧
      (appendTaxInfoToSheet record true env 0).success = false ∧
      (appendTaxInfoToSheet record true env 0).waits = [1000, 2000] ∧
      (appendTaxInfoToSheet record true env 0).message
        = orElse (m 2) "Apps Script returned error") := by
  constructor
  · intro status st b h4 h4b h0
    have hc1 : ¬(200 ≤ status ∧ status ≤ 299) := by omega
    have hc2 : ¬(500 ≤ status ∧ 0 < MAX_RETRIES) := by
      simp only [MAX_RETRIES]
      omega
    refine ⟨?_, ?_, ?_⟩ <;>
      simp [appendTaxInfoToSheet, h0, hc1, hc2]
  · intro st m h
    refine ⟨?_, ?_, ?_, ?_⟩ <;>
      simp [appendTaxInfoToSheet, h 0, h 1, h 2, MAX_RETRIES]

/-- An HTTP-404 webhook, for the C1 witness. -/
def envAlways404 : Nat → FetchOutcome :=
  fun _ => .response 404 "Not Found" .badJson

/-- A webhook always answering a well-formed body whose application
success flag is false, for the C1 witness. -/
def envAlwaysAppFlag : Nat → FetchOutcome :=
  fun _ => .response 200 "OK" (.okJson false "quota exceeded")

/-- Witness for C1 at two concrete webhooks. -/
theorem sync_4xx_final_app_failure_retried_witness :
    ((appendTaxInfoToSheet anyRecord true envAlways404 0).attempts = 1 ∧
      (appendTaxInfoToSheet anyRecord true envAlways404 0).success = false ∧
      (appendTaxInfoToSheet anyRecord true envAlways404 0).message
        = errorMessageFor 404 "Not Found") ∧
    ((appendTaxInfoToSheet anyRecord true envAlwaysAppFlag 0).attempts = 3 ∧
      (appendTaxInfoToSheet anyRecord true envAlwaysAppFlag 0).success = false ∧
      (appendTaxInfoToSheet anyRecord true envAlwaysAppFlag 0).waits = [1000, 2000] ∧
      (appendTaxInfoToSheet anyRecord true envAlwaysAppFlag 0).message
        = orElse "quota exceeded" "Apps Script returned error") :=
  ⟨(sync_4xx_final_app_failure_retried anyRecord envAlways404).1 404 "Not Found"
      .badJson (by decide) (by decide) rfl,
    (sync_4xx_final_app_failure_retried anyRecord envAlwaysAppFlag).2
      (fun _ => "OK") (fun _ => "quota exceeded") (fun _ => rfl)⟩


/-- The common normalized company record (`CompanyLookupResult.data`). -/
structure CompanyRec where
  taxCode : String
  companyName : String
  companyNameEn : String
  shortName : String
  address : String
deriving DecidableEq, Repr

/-- The parsed JSON `data` object of a VietQR response; the empty
string models a null/absent field. -/
structure VietQRData where
  id : String
  name : String
  internationalName : String
  shortName : String
  address : String
deriving DecidableEq, Repr

/-- Outcome of the single `fetch` inside `tryVietQRApi`: HTTP 429, any
other non-2xx status, a parsed JSON body with its `code`/`desc`/`data`
fields (`data` absent models null), an unparseable body, the 10-second
abort, or a network-level failure. -/
inductive VietQROutcome
  | rateLimited
  | httpError (status : Nat)
  | okBody (code : String) (desc : String) (data : Option VietQRData)
  | badJson
  | timeout
  | fetchFailed
deriving DecidableEq, Repr

/-- Return value of `tryVietQRApi`: a normalized success record, or the
explicit `{success:false, message}` error object built from a non-"00"
code (null returns are `none`). -/
inductive TryResult
  | found (r : CompanyRec)
  | apiError (message : String)
deriving DecidableEq, Repr

/-- `tryVietQRApi` from `server/server.js`, as a function of the fetch
outcome: 429, other non-ok statuses, parse failures, timeouts and
network errors all return null; code `"00"` with a data object returns
the normalized record (address through `formatAddress`); a truthy
non-"00" code returns the error object carrying the `desc` field;
anything else (missing data, falsy code) returns null. -/
def tryVietQRApi (taxCode : String) (o : VietQROutcome) : Option TryResult :=
  match o with
  | .rateLimited => none
  | .httpError _ => none
  | .badJson => none
  | .timeout => none
  | .fetchFailed => none
  | .okBody code desc data =>
    if code = "00" then
      match data with
      | some d => some (.found ⟨orElse d.id taxCode, d.name, d.internationalName,
          d.shortName, formatAddress d.address⟩)
      | none => none
    else if code ≠ "" then
      some (.apiError ("VietQR API: " ++ orElse desc "Unknown error"))
    else none

/-- The parsed JSON body of the configured custom lookup API; the empty
string models a null/absent field. -/
structure CustomBody where
  MaSoThue : String
  Title : String
  TitleEn : String
  TitleEnAscii : String
  DiaChiCongTy : String
deriving DecidableEq, Repr

/-- Outcome of the custom-API attempt in `lookupCompanyByTaxCode`:
`notConfigured` models `TAX_LOOKUP_API_URL` unset or containing the
`example.com` placeholder; otherwise the fetch either yields a parsed
body, a non-ok status, an unparseable body, the 10-second abort, or a
network failure. -/
inductive CustomApiOutcome
  | notConfigured
  | ok (body : CustomBody)
  | notOk (status : Nat)
  | badJson
  | timeout
  | fetchFailed
deriving DecidableEq, Repr

/-- The custom-API branch of `lookupCompanyByTaxCode`: only an ok
response whose body has truthy `MaSoThue` and `Title` yields a record;
every failure (including thrown parse errors, caught by the inner
catch) falls through silently. -/
def tryCustomApi (taxCode : String) (o : CustomApiOutcome) : Option CompanyRec :=
  match o with
  | .ok b =>
    if b.MaSoThue ≠ "" ∧ b.Title ≠ "" then
      some ⟨orElse b.MaSoThue taxCode, b.Title, b.TitleEn, b.TitleEnAscii,
        formatAddress b.DiaChiCongTy⟩
    else none
  | _ => none

/-- `MOCK_TAX_DATA` from `server/server.js`: the static fallback table,
keyed by exact tax code (`TitleEnAscii` is null in the source). -/
def MOCK_TAX_DATA (taxCode : String) : Option CustomBody :=
  if taxCode = "3901212654" then
    some ⟨"3901212654", "Công Ty TNHH Mtv Ngô Trọng Phát",
      "Ngo Trong Phat Co., Ltd", "",
      "Tổ 17, ấp Tân Tiến, Xã Tân Lập, Huyện Tân Biên, Tỉnh Tây Ninh"⟩
  else none

/-- The regex `[0-9]` repeated 10 to 13 times, anchored. -/
def isValidTaxCode (s : String) : Bool :=
  s.data.all Char.isDigit && decide (10 ≤ s.length) && decide (s.length ≤ 13)

/-- The environment seen by one run of `lookupCompanyByTaxCode`: the
custom-API outcome and the VietQR fetch outcome. -/
structure LookupEnv where
  custom : CustomApiOutcome
  vietqr : VietQROutcome
deriving DecidableEq, Repr

/-- A lookup result as returned to the handler: a success record or a
`{success:false, message}` object. -/
inductive LookupResult
  | success (r : CompanyRec)
  | failure (message : String)
deriving DecidableEq, Repr

/-- The generic all-sources-failed message of `lookupCompanyByTaxCode`. -/
def notFoundMsg : String :=
  "Không tìm thấy thông tin công ty từ các nguồn công khai. Vui lòng nhập thủ công hoặc kiểm tra lại mã số thuế."

/-- `lookupCompanyByTaxCode` from `server/server.js`: defensive format
validation, then custom API, then VietQR (whose error object is only
logged — execution continues), then the static fallback table, and
finally the generic not-found failure. -/
def lookupCompanyByTaxCode (env : LookupEnv) (taxCode : String) : LookupResult :=
  if ¬ isValidTaxCode taxCode then .failure "Mã số thuế không hợp lệ"
  else
    match tryCustomApi taxCode env.custom with
    | some r => .success r
    | none =>
      match tryVietQRApi taxCode env.vietqr with
      | some (.found r) => .success r
      | _ =>
        match MOCK_TAX_DATA taxCode with
        | some m => .success ⟨orElse m.MaSoThue taxCode, m.Title, m.TitleEn,
            m.TitleEnAscii, formatAddress m.DiaChiCongTy⟩
        | none => .failure notFoundMsg


/-- The public registry API was unreachable or returned an error: every
non-response outcome, any non-ok HTTP status, and a parsed body whose
code is not `"00"`. -/
def vietqrNotFound : VietQROutcome → Prop
  | .okBody code _ _ => code ≠ "00"
  | _ => True

theorem tryVietQR_not_found {tc : String} {o : VietQROutcome}
    (h : vietqrNotFound o) : ∀ r, tryVietQRApi tc o ≠ some (.found r) := by
  intro r hr
  cases o with
  | okBody code desc data =>
    have hcode : code ≠ "00" := h
    simp only [tryVietQRApi, if_neg hcode] at hr
    split at hr <;> simp at hr
  | rateLimited => simp [tryVietQRApi] at hr
  | httpError st => simp [tryVietQRApi] at hr
  | badJson => simp [tryVietQRApi] at hr
  | timeout => simp [tryVietQRApi] at hr
  | fetchFailed => simp [tryVietQRApi] at hr

/-- C2 counterexample: with no custom API, a VietQR response carrying an
explicit error description (code `"51"`, desc `"Not Exist"`), and a
valid tax code absent from the fallback table, the lookup returns the
generic not-found message — not the VietQR description the claim says
is preferred, even though `tryVietQRApi` did surface that description
to the orchestrator. -/
theorem lookup_generic_message_cex :
    lookupCompanyByTaxCode ⟨.notConfigured, .okBody "51" "Not Exist" none⟩
        "0123456789" = .failure notFoundMsg ∧
    tryVietQRApi "0123456789" (.okBody "51" "Not Exist" none)
      = some (.apiError "VietQR API: Not Exist") ∧
    notFoundMsg ≠ "VietQR API: Not Exist" := by
  refine ⟨by decide, by decide, by decide⟩

/-- C2 (amended): when the custom API yields nothing, the public
registry API does not return a success record, and the tax code is not
in the static fallback table, the lookup fails with the fixed generic
not-found message; the public API's explicit error description is only
logged and never surfaced in the returned message. -/
theorem lookup_all_fail_generic (env : LookupEnv) (taxCode : String)
    (hv : isValidTaxCode taxCode = true)
    (hc : tryCustomApi taxCode env.custom = none)
    (hq : ∀ r, tryVietQRApi taxCode env.vietqr ≠ some (.found r))
    (hm : MOCK_TAX_DATA taxCode = none) :
    lookupCompanyByTaxCode env taxCode = .failure notFoundMsg := by
  cases hqv : tryVietQRApi taxCode env.vietqr with
  | none => simp [lookupCompanyByTaxCode, hv, hc, hqv, hm]
  | some tr =>
    cases tr with
    | found r => exact absurd hqv (hq r)
    | apiError m => simp [lookupCompanyByTaxCode, hv, hc, hqv, hm]

/-- Witness for C2: all three sources fail concretely (custom API not
configured, VietQR timing out, tax code not in the table). -/
theorem lookup_all_fail_generic_witness :
    lookupCompanyByTaxCode ⟨.notConfigured, .timeout⟩ "0123456789"
      = .failure notFoundMsg :=
  lookup_all_fail_generic ⟨.notConfigured, .timeout⟩ "0123456789"
    (by decide) (by decide)
    (fun r h => by simp [tryVietQRApi] at h) (by decide)

/-- C8: with no custom API configured and the public registry API
unreachable or erroring, looking up `3901212654` resolves via the
static fallback table to success with the expected company name and an
address ending in `Việt Nam`. -/
theorem lookup_static_fallback (env : LookupEnv)
    (hc : env.custom = .notConfigured)
    (hq : vietqrNotFound env.vietqr) :
    ∃ r, lookupCompanyByTaxCode env "3901212654" = .success r ∧
      r.companyName = "Công Ty TNHH Mtv Ngô Trọng Phát" ∧
      "Việt Nam".data.isSuffixOf r.address.data = true := by
  have hv : isValidTaxCode "3901212654" = true := by decide
  have hcust : tryCustomApi "3901212654" env.custom = none := by
    rw [hc]
    rfl
  refine ⟨⟨"3901212654", "Công Ty TNHH Mtv Ngô Trọng Phát",
    "Ngo Trong Phat Co., Ltd", "",
    "Tổ 17, ấp Tân Tiến, Xã Tân Lập, Huyện Tân Biên, Tỉnh Tây Ninh, Việt Nam"⟩,
    ?_, rfl, by decide⟩
  cases hqv : tryVietQRApi "3901212654" env.vietqr with
  | none =>
    simp only [lookupCompanyByTaxCode, hv, hcust, hqv]
    decide
  | some tr =>
    cases tr with
    | found r => exact absurd hqv (tryVietQR_not_found hq r)
    | apiError m =>
      simp only [lookupCompanyByTaxCode, hv, hcust, hqv]
      decide

/-- Witness for C8 at a concrete environment (VietQR timing out). -/
theorem lookup_static_fallback_witness :
    ∃ r, lookupCompanyByTaxCode ⟨.notConfigured, .timeout⟩ "3901212654"
        = .success r ∧
      r.companyName = "Công Ty TNHH Mtv Ngô Trọng Phát" ∧
      "Việt Nam".data.isSuffixOf r.address.data = true :=
  lookup_static_fallback ⟨.notConfigured, .timeout⟩ rfl trivial


/-- Environment of the file-backed persistence store: whether the
`VERCEL` flag is set, and whether the underlying `writeFileSync` would
throw an IO error. -/
structure FsEnv where
  vercel : Bool
  writeThrows : Bool
deriving DecidableEq, Repr

/-- `writeTaxInfo` from `server/server.js`: on Vercel the write is
skipped and `true` is returned; a thrown IO error is caught and `true`
is returned as well (leaving the file unchanged); otherwise the record
is written. The returned pair is the boolean result together with the
resulting file slot. -/
def writeTaxInfo (fs : FsEnv) (slot : Option TaxRecord) (record : TaxRecord) :
    Bool × Option TaxRecord :=
  if fs.vercel then (true, slot)
  else if fs.writeThrows then (true, slot)
  else (true, some record)

/-- `readTaxInfo` from `server/server.js`: null on Vercel, null when the
file does not exist, the parsed record otherwise; a `JSON.parse` throw
(modelled by `parseOk = false`) is caught and yields null. -/
def readTaxInfo (fs : FsEnv) (slot : Option TaxRecord) (parseOk : Bool) :
    Option TaxRecord :=
  if fs.vercel then none
  else
    match slot with
    | none => none
    | some r => if parseOk then some r else none

/-- A character of the local part class of the email regex
(`A-Z`, `0-9` and `._%+-`, case-insensitively). -/
def isLocalChar (c : Char) : Bool :=
  c.isAlpha || c.isDigit || c = '.' || c = '_' || c = '%' || c = '+' || c = '-'

/-- A character of the domain class of the email regex
(`A-Z`, `0-9`, dot and dash, case-insensitively). -/
def isDomainChar (c : Char) : Bool :=
  c.isAlpha || c.isDigit || c = '.' || c = '-'

/-- Split a list at the first occurrence of a character. -/
def breakAt (c : Char) : List Char → Option (List Char × List Char)
  | [] => none
  | x :: xs =>
    if x = c then some ([], xs)
    else
      match breakAt c xs with
      | some (a, b) => some (x :: a, b)
      | none => none

/-- The anchored case-insensitive email regex of the submit handler:
one or more local-class characters, `@`, one or more domain-class
characters, a dot, then two or more letters to the end. Since neither
character class contains `@`, a match forces exactly one `@`; the final
`dot + letters-to-end` group is equivalent to demanding that the
maximal trailing run of letters has length at least 2 and is preceded
by a dot that is not the first domain character. -/
def emailRegexTest (s : String) : Bool :=
  match breakAt '@' s.data with
  | none => false
  | some (lo, dom) =>
    decide (lo ≠ []) && lo.all isLocalChar &&
    (let rd := dom.reverse
     let tld := rd.takeWhile (fun c => c.isAlpha)
     decide (2 ≤ tld.length) &&
     (match rd.drop tld.length with
      | '.' :: before => decide (before ≠ []) && before.all isDomainChar
      | _ => false))

/-- The anchored phone regex of the submit handler: 10 or 11 digits. -/
def isValidPhone (s : String) : Bool :=
  s.data.all Char.isDigit && decide (10 ≤ s.length) && decide (s.length ≤ 11)

/-- The request body of `POST /api/tax-info`; the empty string models a
missing or falsy field. -/
structure SubmitReq where
  taxCode : String
  companyName : String
  address : String
  email : String
  phone : String
  invoiceNumber : String
  createdAt : String
deriving DecidableEq, Repr

/-- Observable result of the submit handler: HTTP status, the
`success`/`message` body fields, the `data.phone` field when data is
returned, and whether the spreadsheet webhook sync was invoked. -/
structure SubmitResp where
  status : Nat
  success : Bool
  message : String
  dataPhone : Option String
  syncAttempted : Bool
deriving DecidableEq, Repr

/-- The `taxInfo` object assembled by the submit handler (`now` models
`new Date().toISOString()`). -/
def recOf (req : SubmitReq) (normalizedPhone now : String) : TaxRecord :=
  ⟨req.taxCode, req.companyName, req.address, req.email, normalizedPhone,
    req.invoiceNumber, orElse req.createdAt now, now⟩

/-- The `POST /api/tax-info` handler from `server/server.js`: the
validation chain in source order (tax code present, tax code format,
email present, email format, phone present, then phone format after
normalization), then the file write, the spreadsheet sync, and the
response shaped by the write result and the sync outcome. -/
def submitHandler (req : SubmitReq) (fs : FsEnv) (slot : Option TaxRecord)
    (now : String) (cfg : Bool) (sheets : Nat → FetchOutcome) : SubmitResp :=
  if req.taxCode = "" then ⟨400, false, "Mã số thuế là bắt buộc", none, false⟩
  else if !isValidTaxCode req.taxCode then
    ⟨400, false, "Mã số thuế phải có 10-13 chữ số", none, false⟩
  else if req.email = "" || decide (trimL req.email.data = []) then
    ⟨400, false, "Email là bắt buộc", none, false⟩
  else if !emailRegexTest req.email then
    ⟨400, false, "Email không hợp lệ", none, false⟩
  else if req.phone = "" || decide (trimL req.phone.data = []) then
    ⟨400, false, "Số điện thoại là bắt buộc", none, false⟩
  else
    let normalizedPhone := normalizePhone req.phone
    if !isValidPhone normalizedPhone then
      ⟨400, false,
        "Số điện thoại phải có 10-11 chữ số (có thể nhập với dấu cách hoặc dấu gạch ngang)",
        none, false⟩
    else
      let taxInfo := recOf req normalizedPhone now
      let saved := (writeTaxInfo fs slot taxInfo).1
      let gs := appendTaxInfoToSheet taxInfo cfg sheets 0
      if saved then
        ⟨200, true,
          (if gs.success then
            "Thông tin mã số thuế đã được lưu thành công và đã được ghi vào Google Sheet"
          else
            "Thông tin mã số thuế đã được lưu thành công" ++
              " (Lưu vào Google Sheet: " ++ gs.message ++ ")"),
          some normalizedPhone, true⟩
      else ⟨500, false, "Failed to save tax information", none, true⟩

/-- How the awaited `lookupCompanyByTaxCode` call (raced against the
15-second timeout) ends, as seen by the lookup route handler. -/
inductive LookupCallOutcome
  | completed (r : LookupResult)
  | raceTimeout
  | threw (msg : String)
deriving DecidableEq, Repr

/-- Observable result of the lookup route handler: HTTP status, the
body fields, and whether the lookup orchestrator was invoked. -/
structure LookupResp where
  status : Nat
  success : Bool
  message : String
  data : Option CompanyRec
  lookupAttempted : Bool
deriving DecidableEq, Repr

/-- The format-error message of `GET /api/tax-lookup/:taxCode`. -/
def invalidFormatMsg : String :=
  "Mã số thuế không hợp lệ. Vui lòng nhập 10-13 chữ số."

/-- The `GET /api/tax-lookup/:taxCode` handler from `server/server.js`:
format validation first (HTTP 200 with the format-error message, the
orchestrator never invoked), then the awaited lookup; every outcome —
success, business failure, race timeout, thrown error — is shaped into
an HTTP 200 JSON response. -/
def taxLookupHandler (taxCode : String) (call : LookupCallOutcome) : LookupResp :=
  if taxCode = "" || !isValidTaxCode taxCode then
    ⟨200, false, invalidFormatMsg, none, false⟩
  else
    match call with
    | .completed (.success r) => ⟨200, true, "", some r, true⟩
    | .completed (.failure m) =>
      ⟨200, false, orElse m "Không tìm thấy thông tin công ty từ các nguồn tra cứu",
        none, true⟩
    | .raceTimeout => ⟨200, false, "Lookup timeout after 15 seconds", none, true⟩
    | .threw m =>
      ⟨200, false, orElse m "Lỗi khi tra cứu thông tin. Vui lòng thử lại sau.",
        none, true⟩

/-- Prefix test on character lists (pattern first). -/
def startsWithL : List Char → List Char → Bool
  | [], _ => true
  | _ :: _, [] => false
  | p :: ps, c :: cs => decide (c = p) && startsWithL ps cs

/-- `String.prototype.includes`, on character lists. -/
def containsSub (needle : List Char) : List Char → Bool
  | [] => needle.isEmpty
  | c :: rest => startsWithL needle (c :: rest) || containsSub needle rest

/-- The error-handling middleware from `server/server.js`, for the case
where headers have not been sent: requests whose URL contains
`/api/tax-lookup/` get HTTP 200 with the error message, every other
request gets HTTP 500. -/
def errorMiddleware (url : String) (errMsg : String) : Nat × Bool × String :=
  if containsSub "/api/tax-lookup/".data url.data then
    (200, false, orElse errMsg "Lỗi khi tra cứu thông tin. Vui lòng thử lại sau.")
  else
    (500, false, orElse errMsg "Something went wrong!")

theorem startsWithL_append (p rest : List Char) :
    startsWithL p (p ++ rest) = true := by
  induction p with
  | nil => rfl
  | cons c cs ih => simp [startsWithL, ih]

theorem containsSub_append (needle a b : List Char) :
    containsSub needle (a ++ (needle ++ b)) = true := by
  induction a with
  | nil =>
    rw [List.nil_append]
    cases needle with
    | nil =>
      cases b with
      | nil => rfl
      | cons x xs => simp [containsSub, startsWithL]
    | cons n ns =>
      have h := startsWithL_append (n :: ns) b
      rw [show (n :: ns) ++ b = n :: (ns ++ b) from rfl] at h
      simp [containsSub, h]
  | cons x a ih =>
    rw [List.cons_append]
    simp [containsSub, ih]


/-- C9: with the `VERCEL` flag set, `writeTaxInfo` performs no
filesystem write (the slot is unchanged) and reports success for every
record, and `readTaxInfo` returns nothing regardless of any previously
saved record. -/
theorem vercel_noop_storage (fs : FsEnv) (slot : Option TaxRecord)
    (record : TaxRecord) (parseOk : Bool) (h : fs.vercel = true) :
    readTaxInfo fs slot parseOk = none ∧
    writeTaxInfo fs slot record = (true, slot) := by
  constructor <;> simp [readTaxInfo, writeTaxInfo, h]

/-- Witness for C9 at a concrete Vercel environment with a previously
saved record in the slot. -/
theorem vercel_noop_storage_witness :
    readTaxInfo ⟨true, false⟩ (some anyRecord) true = none ∧
    writeTaxInfo ⟨true, false⟩ (some anyRecord) anyRecord
      = (true, some anyRecord) :=
  vercel_noop_storage ⟨true, false⟩ (some anyRecord) anyRecord true rfl

theorem writeTaxInfo_fst (fs : FsEnv) (slot : Option TaxRecord)
    (record : TaxRecord) : (writeTaxInfo fs slot record).1 = true := by
  unfold writeTaxInfo
  split_ifs <;> rfl

/-- C10: `writeTaxInfo` returns true in every environment — including
when the underlying filesystem write throws — so the submit handler's
save-failure branch (HTTP 500 `Failed to save tax information`) is
unreachable: no submit response ever carries status 500. -/
theorem write_always_true_no_save_500 :
    (∀ (fs : FsEnv) (slot : Option TaxRecord) (record : TaxRecord),
      (writeTaxInfo fs slot record).1 = true) ∧
    (∀ (req : SubmitReq) (fs : FsEnv) (slot : Option TaxRecord) (now : String)
        (cfg : Bool) (sheets : Nat → FetchOutcome),
      (submitHandler req fs slot now cfg sheets).status ≠ 500) := by
  refine ⟨writeTaxInfo_fst, ?_⟩
  intro req fs slot now cfg sheets
  unfold submitHandler
  simp only [writeTaxInfo_fst, if_true]
  split_ifs <;> simp

/-- C4: a tax code failing the 10-to-13-digit format check is rejected
by both handlers with a validation-error response before any external
call: the lookup handler answers HTTP 200 with `success:false` and the
format message without invoking the lookup orchestrator, and the
submit handler answers HTTP 400 with `success:false` without invoking
the spreadsheet webhook. -/
theorem invalid_taxcode_rejected (tc : String) (h : isValidTaxCode tc = false) :
    (∀ call, (taxLookupHandler tc call).lookupAttempted = false ∧
      (taxLookupHandler tc call).status = 200 ∧
      (taxLookupHandler tc call).success = false ∧
      (taxLookupHandler tc call).message = invalidFormatMsg) ∧
    (∀ (req : SubmitReq) (fs : FsEnv) (slot : Option TaxRecord) (now : String)
        (cfg : Bool) (sheets : Nat → FetchOutcome), req.taxCode = tc →
      (submitHandler req fs slot now cfg sheets).syncAttempted = false ∧
      (submitHandler req fs slot now cfg sheets).status = 400 ∧
      (submitHandler req fs slot now cfg sheets).success = false) := by
  constructor
  · intro call
    simp [taxLookupHandler, h]
  · intro req fs slot now cfg sheets hreq
    subst hreq
    by_cases he : req.taxCode = ""
    · simp [submitHandler, he]
    · simp [submitHandler, he, h]

/-- A concrete submit request with the malformed tax code `abc`. -/
def reqAbc : SubmitReq :=
  ⟨"abc", "", "", "test@example.com", "0123456789", "", ""⟩

/-- A local (non-Vercel, non-throwing) filesystem environment. -/
def fsLocal : FsEnv := ⟨false, false⟩

/-- A webhook environment that always times out. -/
def envTimeout : Nat → FetchOutcome := fun _ => .timeout

/-- Witness for C4 at the concrete tax code `abc`. -/
theorem invalid_taxcode_rejected_witness :
    ((taxLookupHandler "abc" (.completed (.failure "x"))).lookupAttempted = false ∧
      (taxLookupHandler "abc" (.completed (.failure "x"))).status = 200 ∧
      (taxLookupHandler "abc" (.completed (.failure "x"))).success = false ∧
      (taxLookupHandler "abc" (.completed (.failure "x"))).message = invalidFormatMsg) ∧
    ((submitHandler reqAbc fsLocal none "" false envTimeout).syncAttempted = false ∧
      (submitHandler reqAbc fsLocal none "" false envTimeout).status = 400 ∧
      (submitHandler reqAbc fsLocal none "" false envTimeout).success = false) :=
  ⟨(invalid_taxcode_rejected "abc" (by decide)).1 (.completed (.failure "x")),
    (invalid_taxcode_rejected "abc" (by decide)).2 reqAbc fsLocal none "" false
      envTimeout rfl⟩

/-- C7: `GET /api/tax-lookup/abc` answers HTTP 200 with `success:false`
and the format-error message (without invoking the lookup); the lookup
handler answers HTTP 200 on every input and every call outcome
(success, business failure, race timeout, thrown error — the handler is
a total function, it never propagates an exception); and the
error-handling middleware also answers 200 for any URL containing
`/api/tax-lookup/`. -/
theorem lookup_endpoint_always_200 :
    (∀ call, taxLookupHandler "abc" call
      = ⟨200, false, invalidFormatMsg, none, false⟩) ∧
    (∀ tc call, (taxLookupHandler tc call).status = 200) ∧
    (∀ pre post msg,
      (errorMiddleware (pre ++ "/api/tax-lookup/" ++ post) msg).1 = 200) := by
  refine ⟨?_, ?_, ?_⟩
  · intro call
    have h : isValidTaxCode "abc" = false := by decide
    simp [taxLookupHandler, h]
  · intro tc call
    unfold taxLookupHandler
    split
    · rfl
    · cases call with
      | completed r => cases r <;> rfl
      | raceTimeout => rfl
      | threw m => rfl
  · intro pre post msg
    unfold errorMiddleware
    rw [if_pos]
    have hd : (pre ++ "/api/tax-lookup/" ++ post).data
        = pre.data ++ ("/api/tax-lookup/".data ++ post.data) := by
      simp [String.data_append, List.append_assoc]
    rw [hd]
    exact containsSub_append _ _ _

end TaxInfo
